import Mathlib

/-!
Formal model of `codes/trainer/eval/audio_diffusion_fid.py` (DL-Art-School).

The file embeds the pure/arithmetic core of the `AudioDiffusionFid` evaluator:
the `diffusion_type` dispatch of `__init__`, the padding arithmetic shared by
the diffusion sampling variants, the intelligibility scorer, the Fréchet
distance computation, and the control/data flow of `perform_eval`.
External model calls (diffusion sampler, wav2vec2, resampling, the CLIP
projector) are abstracted as function parameters; floating-point tensors are
modelled with exact rationals.
-/

/-- The four sampling strategies `AudioDiffusionFid.__init__` can assign to
`self.diffusion_fn`, one per recognized `diffusion_type` string. -/
inductive DiffusionFn
  | perform_diffusion_tts
  | perform_original_diffusion_vocoder
  | perform_diffusion_vocoder
  | perform_diffusion_tts9_mel_from_codes
deriving DecidableEq

/-- The `diffusion_type` dispatch of `AudioDiffusionFid.__init__` (lines 46-60):
an if/elif chain over the mode string with no trailing else, so an
unrecognized mode falls through and no sampling function is assigned
(modelled as `none`); construction completes without raising. -/
def select_diffusion_fn (mode : String) : Option DiffusionFn :=
  if mode = "tts" then some DiffusionFn.perform_diffusion_tts
  else if mode = "original_vocoder" then some DiffusionFn.perform_original_diffusion_vocoder
  else if mode = "vocoder" then some DiffusionFn.perform_diffusion_vocoder
  else if mode = "tts9_mel" then some DiffusionFn.perform_diffusion_tts9_mel_from_codes
  else none

/-- Modelled from the spec: `ceil_multiple` is imported from `utils.util`,
which is not part of the provided sources.  The spec states that the result is
the smallest multiple of the alignment multiple that is greater than or equal
to the given size. -/
def ceil_multiple (base m : Nat) : Nat :=
  if base % m = 0 then base else base + (m - base % m)

/-- The code padding amount computed by `perform_diffusion_tts` (lines 66-68)
and `perform_diffusion_vocoder` (lines 110-112):
`padding_added = ceil_multiple(output_size, alignment) - output_size`
followed by `padding_added // compression`. -/
def padding_needed_for_codes (output_size alignment compression : Nat) : Nat :=
  (ceil_multiple output_size alignment - output_size) / compression

/-- Right-padding of the discrete code sequence with zeros (`F.pad(codes,
(0, padding_needed_for_codes))`), applied only when the amount is positive
(lines 69-70 and 113-114). -/
def pad_codes (codes : List Int) (output_size alignment compression : Nat) : List Int :=
  if padding_needed_for_codes output_size alignment compression > 0 then
    codes ++ List.replicate (padding_needed_for_codes output_size alignment compression) 0
  else codes

/-- Compression factor between aligned codes and output samples used by
`perform_diffusion_tts` (line 64): `sample_rate * 221 // 11025`. -/
def aligned_codes_compression_factor (sample_rate : Nat) : Nat :=
  sample_rate * 221 / 11025

/-- The code-conditioning preparation of `perform_diffusion_tts` (lines 62-70):
output size is `codes.shape[-1] * compression_factor`, padded up to a multiple
of 2048, and the codes are right-padded accordingly. -/
def perform_diffusion_tts_codes (codes : List Int) (sample_rate : Nat) : List Int :=
  pad_codes codes (codes.length * aligned_codes_compression_factor sample_rate) 2048
    (aligned_codes_compression_factor sample_rate)

/-- Mean of a tensor, as in `s.mean()` (exact-rational model). -/
def torch_mean (s : List ℚ) : ℚ := s.sum / s.length

/-- Unbiased variance of a tensor, as in `s.var()` (torch default divides by
`n - 1`; exact-rational model). -/
def torch_var (s : List ℚ) : ℚ :=
  (s.map (fun x => (x - torch_mean s) ^ 2)).sum / ((s.length : ℚ) - 1)

/-- Per-sample normalization of `intelligibility_loss` (line 179):
`(s - s.mean()) / torch.sqrt(s.var() + 1e-7)`, with `torch.sqrt` abstracted
as `sqrtFn`. -/
def norm_s (sqrtFn : ℚ → ℚ) (s : List ℚ) : List ℚ :=
  s.map (fun x => (x - torch_mean s) / sqrtFn (torch_var s + 1 / 10000000))

/-- `AudioDiffusionFid.intelligibility_loss` (lines 171-184): tokenize the
transcript, then for each of the generated and real samples resample from
`sample_rate` to 16000, normalize, compute the wav2vec2 CTC loss against the
token codes, and return `gen_loss - real_loss`.  `resample`, `sqrtFn`,
`w2vLoss` and `text_to_sequence` are the external model calls. -/
def intelligibility_loss (resample : Nat → Nat → List ℚ → List ℚ) (sqrtFn : ℚ → ℚ)
    (w2vLoss : List ℚ → List Nat → ℚ) (text_to_sequence : String → List Nat)
    (sample real_sample : List ℚ) (sample_rate : Nat) (real_text : String) : ℚ :=
  let text_codes := text_to_sequence real_text
  let loss := fun s => w2vLoss (norm_s sqrtFn (resample sample_rate 16000 s)) text_codes
  loss sample - loss real_sample

/-- Column-wise mean of a stack of projection vectors, as in
`np.mean(proj, axis=0)` (line 191-192). -/
def np_mean {d : ℕ} (rows : List (Fin d → ℚ)) (j : Fin d) : ℚ :=
  (rows.map (fun r => r j)).sum / rows.length

/-- Sample covariance matrix of a stack of projection vectors, as in
`np.cov(proj, rowvar=False)` (lines 193-194; numpy's default `ddof=1`
divides by `n - 1`). -/
def np_cov {d : ℕ} (rows : List (Fin d → ℚ)) : Matrix (Fin d) (Fin d) ℚ :=
  Matrix.of fun i j =>
    (rows.map (fun r => (r i - np_mean rows i) * (r j - np_mean rows j))).sum
      / ((rows.length : ℚ) - 1)

/-- Modelled from the spec: `calculate_frechet_distance` comes from the
external `pytorch_fid` package, not from the provided sources.  The spec
gives the closed form
`norm(mu1 - mu2)^2 + trace(sigma1 + sigma2 - 2 * sqrtm(sigma1 @ sigma2))`.
The trace of the matrix square root is represented by the parameter
`tr_sqrtm`; being a sum of square roots of eigenvalues, it depends only on
the spectrum of its argument (hypothesis `SpectralFunction` below). -/
def calculate_frechet_distance {d : ℕ} (tr_sqrtm : Matrix (Fin d) (Fin d) ℚ → ℚ)
    (mu1 : Fin d → ℚ) (sigma1 : Matrix (Fin d) (Fin d) ℚ)
    (mu2 : Fin d → ℚ) (sigma2 : Matrix (Fin d) (Fin d) ℚ) : ℚ :=
  Finset.univ.sum (fun j => (mu1 j - mu2 j) ^ 2)
    + Matrix.trace sigma1 + Matrix.trace sigma2 - 2 * tr_sqrtm (sigma1 * sigma2)

/-- `AudioDiffusionFid.compute_frechet_distance` (lines 187-195): compute the
empirical means and covariances of the two projection stacks and hand them to
`calculate_frechet_distance`. -/
def compute_frechet_distance {d : ℕ} (tr_sqrtm : Matrix (Fin d) (Fin d) ℚ → ℚ)
    (proj1 proj2 : List (Fin d → ℚ)) : ℚ :=
  calculate_frechet_distance tr_sqrtm (np_mean proj1) (np_cov proj1)
    (np_mean proj2) (np_cov proj2)

/-- A function of a square matrix that depends only on its spectrum, i.e.
only on its characteristic polynomial.  The trace of a matrix square root
(`np.trace(scipy.linalg.sqrtm(M))`) is such a function: it is the sum of the
square roots of the eigenvalues of `M`. -/
def SpectralFunction {d : ℕ} (tr_sqrtm : Matrix (Fin d) (Fin d) ℚ → ℚ) : Prop :=
  ∀ M N : Matrix (Fin d) (Fin d) ℚ, M.charpoly = N.charpoly → tr_sqrtm M = tr_sqrtm N

/-- `list(range(0, stop, step))` from Python, for positive `step` (the loop
header of `perform_eval`, line 218). -/
def pyRange (stop step : Nat) : List Nat :=
  (List.range ((stop + step - 1) / step)).map (fun j => j * step)

/-- The dataset indices accessed by a worker: the loop runs over
`range(0, len(data), skip)` and reads `data[i + rank]` (lines 218-219). -/
def accessed_indices (rank data_len skip : Nat) : List Nat :=
  (pyRange data_len skip).map (fun i => i + rank)

/-- The output directory of `perform_eval` (line 198):
`os.path.join(base_path, "../", "audio_eval", str(step))`. -/
def save_path (base_path : String) (step : Nat) : String :=
  base_path ++ "/../audio_eval/" ++ toString step

/-- The fixed seed installed by `perform_eval` (line 211): `torch.manual_seed(5)`. -/
def torch_manual_seed : Nat := 5

/-- The global state that `perform_eval` saves, mutates and restores: the
torch RNG state (abstracted to a `Nat`), whether the model under test is in
training mode, and whether the auxiliary `local_modules` live on the compute
device. -/
structure EvalState where
  rng : Nat
  modelTraining : Bool
  modulesOnDevice : Bool
deriving DecidableEq

/-- Global state right after the prologue of `perform_eval` (lines 206-212):
auxiliary modules moved to the device, the RNG reseeded with the fixed seed,
and the model switched to eval mode. -/
def eval_mode_state (s : EvalState) : EvalState :=
  { s with rng := torch_manual_seed, modelTraining := false, modulesOnDevice := true }

/-- State behaviour of `perform_eval` (lines 197-248).  `loopBody` is the
evaluation loop; it either finishes with a final state or raises, carrying
the state at the point of the raise (`Except.error`).  On success the
epilogue (lines 241-246) switches the model back to training mode, restores
the saved RNG state and moves the auxiliary modules back to the CPU; there is
no try/finally, so an exception propagates with no restoration. -/
def perform_eval_state (loopBody : EvalState → Except EvalState EvalState)
    (s : EvalState) : Except EvalState EvalState :=
  let rng_state := s.rng
  match loopBody (eval_mode_state s) with
  | Except.error e => Except.error e
  | Except.ok s3 =>
      Except.ok { s3 with modelTraining := true, rng := rng_state, modulesOnDevice := false }

/-- Observable outputs of the `perform_eval` loop: dataset indices read,
accumulated projections, audio files written, and the keys of the returned
mapping. -/
structure EvalOutputs (V : Type) where
  accessed : List Nat
  gen_projections : List V
  real_projections : List V
  saved_files : List String
  result_keys : List String

/-- Data flow of the `perform_eval` loop (lines 218-248): iterate over
`range(0, data_len, skip)`, read `data[i + rank]`, append one generated and
one real projection per iteration, write `<save_path>/<rank>_<i>_gen.wav`
then `<save_path>/<rank>_<i>_real.wav`, and return a mapping with exactly
the keys `frechet_distance` and `intelligibility_loss` (line 248).
`project_gen`/`project_real` abstract the sampling-plus-projection of the
dataset entry at a given index. -/
def perform_eval_loop {V : Type} (project_gen project_real : Nat → V)
    (base_path : String) (step rank data_len skip : Nat) : EvalOutputs V :=
  let idxs := pyRange data_len skip
  let accessed := accessed_indices rank data_len skip
  { accessed := accessed
    gen_projections := accessed.map project_gen
    real_projections := accessed.map project_real
    saved_files := (idxs.map (fun i =>
      [save_path base_path step ++ "/" ++ toString rank ++ "_" ++ toString i ++ "_gen.wav",
       save_path base_path step ++ "/" ++ toString rank ++ "_" ++ toString i ++ "_real.wav"])).flatten
    result_keys := ["frechet_distance", "intelligibility_loss"] }

/-- Membership bound for the ceiling division used to enumerate
`range(0, stop, step)`. -/
lemma lt_ceil_div_iff {j stop step : Nat} (hs : 0 < step) :
    j < (stop + step - 1) / step ↔ j * step < stop := by
  rw [Nat.lt_iff_add_one_le, Nat.le_div_iff_mul_le hs]
  have h1 : (j + 1) * step = j * step + step := by ring
  omega

/-- Characterization of membership in `pyRange`: exactly the multiples of
`step` below `stop`. -/
lemma mem_pyRange_iff {stop step i : Nat} (hs : 0 < step) :
    i ∈ pyRange stop step ↔ ∃ j, i = j * step ∧ i < stop := by
  unfold pyRange
  rw [List.mem_map]
  constructor
  · rintro ⟨j, hj, rfl⟩
    rw [List.mem_range] at hj
    exact ⟨j, rfl, (lt_ceil_div_iff hs).mp hj⟩
  · rintro ⟨j, rfl, hlt⟩
    exact ⟨j, List.mem_range.mpr ((lt_ceil_div_iff hs).mpr hlt), rfl⟩

/-- When `data_len` is not a multiple of `w`, the last loop index plus any
rank at least `data_len % w` reaches past the dataset. -/
lemma pyRange_overflow {data_len w : Nat} (hw : 0 < w) (hm : data_len % w ≠ 0) :
    ∀ r, data_len % w ≤ r → ∃ i ∈ pyRange data_len w, data_len ≤ i + r := by
  intro r hr
  have h1 := Nat.mod_add_div data_len w
  have h2 : data_len / w * w = w * (data_len / w) := Nat.mul_comm _ _
  refine ⟨data_len / w * w, ?_, ?_⟩
  · rw [mem_pyRange_iff hw]
    exact ⟨data_len / w, rfl, by omega⟩
  · omega

/-- The ceiling multiple never shrinks its argument. -/
lemma le_ceil_multiple (base m : Nat) : base ≤ ceil_multiple base m := by
  unfold ceil_multiple
  by_cases h : base % m = 0 <;> simp [h]

/-- Over a field, `det (x • 1 - P * Q) = det (x • 1 - Q * P)` for any
nonzero scalar `x`, by the Weinstein-Aronszajn identity. -/
lemma det_smul_one_sub_comm {d : ℕ} {K : Type} [Field K] (x : K) (hx : x ≠ 0)
    (P Q : Matrix (Fin d) (Fin d) K) :
    (x • (1 : Matrix (Fin d) (Fin d) K) - P * Q).det
      = (x • (1 : Matrix (Fin d) (Fin d) K) - Q * P).det := by
  have key : ∀ R S : Matrix (Fin d) (Fin d) K,
      x • ((1 : Matrix (Fin d) (Fin d) K) - (x⁻¹ • R) * S)
        = x • (1 : Matrix (Fin d) (Fin d) K) - R * S := by
    intro R S
    rw [smul_sub, Matrix.smul_mul, smul_smul, mul_inv_cancel₀ hx, one_smul]
  rw [← key P Q, ← key Q P, Matrix.det_smul, Matrix.det_smul]
  congr 1
  rw [Matrix.det_one_sub_mul_comm, Matrix.mul_smul, ← Matrix.smul_mul]

/-- The characteristic polynomials of `A * B` and `B * A` agree for square
matrices over `ℚ`, via the fraction field of `ℚ[X]`. -/
lemma charpoly_mul_comm {d : ℕ} (A B : Matrix (Fin d) (Fin d) ℚ) :
    (A * B).charpoly = (B * A).charpoly := by
  set K := FractionRing (Polynomial ℚ)
  set f := algebraMap (Polynomial ℚ) K with hf
  have hinj : Function.Injective f := IsFractionRing.injective _ _
  apply hinj
  have hcm : ∀ M : Matrix (Fin d) (Fin d) ℚ,
      (Matrix.charmatrix M).map f
        = f Polynomial.X • (1 : Matrix (Fin d) (Fin d) K)
            - (f.comp Polynomial.C).mapMatrix M := by
    intro M
    ext i j
    by_cases h : i = j
    · subst h
      simp [Matrix.charmatrix_apply_eq, Matrix.smul_apply, Matrix.one_apply,
        smul_eq_mul]
    · simp [Matrix.charmatrix_apply_ne _ _ _ h, Matrix.smul_apply,
        Matrix.one_apply_ne h, smul_eq_mul]
  have key : ∀ M N : Matrix (Fin d) (Fin d) ℚ,
      f ((M * N).charpoly)
        = (f Polynomial.X • (1 : Matrix (Fin d) (Fin d) K)
            - (f.comp Polynomial.C).mapMatrix M * (f.comp Polynomial.C).mapMatrix N).det := by
    intro M N
    rw [Matrix.charpoly, RingHom.map_det]
    rw [show f.mapMatrix (Matrix.charmatrix (M * N)) = (Matrix.charmatrix (M * N)).map f from rfl]
    rw [hcm (M * N), map_mul]
  have hx : f Polynomial.X ≠ 0 := by
    intro h0
    have : (Polynomial.X : Polynomial ℚ) = 0 := by
      apply hinj
      rw [h0, map_zero]
    exact Polynomial.X_ne_zero this
  rw [key A B, key B A]
  exact det_smul_one_sub_comm (f Polynomial.X) hx _ _

/-- C1: the claim says that constructing `AudioDiffusionFid` with a
`diffusion_type` that is not one of tts, original_vocoder, vocoder, tts9_mel
raises a configuration error at construction time.  The code does not: the
if/elif chain of `__init__` has no else branch, so an unrecognized mode
completes construction with no sampling function assigned
(`select_diffusion_fn` returns `none`) and the failure is deferred to the
first use of `self.diffusion_fn` inside `perform_eval`.  This theorem
evaluates the dispatch at the failing input `"bogus"`, alongside the four
recognized modes. -/
theorem select_diffusion_fn_falls_through :
    select_diffusion_fn "bogus" = none
      ∧ select_diffusion_fn "tts" = some DiffusionFn.perform_diffusion_tts
      ∧ select_diffusion_fn "original_vocoder"
          = some DiffusionFn.perform_original_diffusion_vocoder
      ∧ select_diffusion_fn "vocoder" = some DiffusionFn.perform_diffusion_vocoder
      ∧ select_diffusion_fn "tts9_mel"
          = some DiffusionFn.perform_diffusion_tts9_mel_from_codes :=
  ⟨rfl, rfl, rfl, rfl, rfl⟩

/-- C2: for every `output_size` and every alignment multiple `m > 0`,
`ceil_multiple` returns the smallest multiple of `m` that is at least
`output_size`: the result is a multiple of `m`, is at least `output_size`,
and subtracting `m` drops strictly below `output_size`. -/
theorem ceil_multiple_correct (output_size m : Nat) (hm : 0 < m) :
    m ∣ ceil_multiple output_size m
      ∧ output_size ≤ ceil_multiple output_size m
      ∧ (ceil_multiple output_size m : Int) - m < output_size := by
  unfold ceil_multiple
  by_cases h : output_size % m = 0
  · rw [if_pos h]
    exact ⟨Nat.dvd_of_mod_eq_zero h, le_rfl, by omega⟩
  · rw [if_neg h]
    have hmod := Nat.mod_add_div output_size m
    have hlt := Nat.mod_lt output_size hm
    refine ⟨⟨output_size / m + 1, ?_⟩, by omega, by omega⟩
    have hx : m * (output_size / m + 1) = m * (output_size / m) + m := by ring
    omega

/-- Witness for C2 at `output_size = 5`, `m = 4` (result 8). -/
theorem ceil_multiple_correct_witness :
    0 < 4 ∧ (4 ∣ ceil_multiple 5 4 ∧ 5 ≤ ceil_multiple 5 4
      ∧ (ceil_multiple 5 4 : Int) - 4 < 5) :=
  ⟨by decide, ceil_multiple_correct 5 4 (by decide)⟩

/-- C3: with a positive compression factor, the codes padding equals the
floor quotient of the added output padding by the compression factor and is
never negative; the code sequence is right-padded with exactly that many
zeros when the amount is positive and returned unchanged when it is zero. -/
theorem pad_codes_correct (codes : List Int) (output_size alignment compression : Nat)
    (hc : 0 < compression) :
    ((padding_needed_for_codes output_size alignment compression : Int)
        = ((ceil_multiple output_size alignment : Int) - output_size) / compression)
      ∧ 0 ≤ (padding_needed_for_codes output_size alignment compression : Int)
      ∧ (0 < padding_needed_for_codes output_size alignment compression →
          pad_codes codes output_size alignment compression
            = codes
                ++ List.replicate (padding_needed_for_codes output_size alignment compression) 0)
      ∧ (padding_needed_for_codes output_size alignment compression = 0 →
          pad_codes codes output_size alignment compression = codes) := by
  refine ⟨?_, Int.natCast_nonneg _, ?_, ?_⟩
  · unfold padding_needed_for_codes
    rw [Int.natCast_div, Int.natCast_sub (le_ceil_multiple output_size alignment)]
  · intro hp
    unfold pad_codes
    rw [if_pos hp]
  · intro hp
    unfold pad_codes
    rw [if_neg (by omega)]

/-- Witness for C3 at `codes = [1, 2]`, `output_size = 5`, `alignment = 4`,
`compression = 2` (padded size 8, codes padding 1). -/
theorem pad_codes_correct_witness :
    0 < 2 ∧ (((padding_needed_for_codes 5 4 2 : Int)
        = ((ceil_multiple 5 4 : Int) - 5) / 2)
      ∧ 0 ≤ (padding_needed_for_codes 5 4 2 : Int)
      ∧ (0 < padding_needed_for_codes 5 4 2 →
          pad_codes [1, 2] 5 4 2 = [1, 2] ++ List.replicate (padding_needed_for_codes 5 4 2) 0)
      ∧ (padding_needed_for_codes 5 4 2 = 0 → pad_codes [1, 2] 5 4 2 = [1, 2])) :=
  ⟨by decide, pad_codes_correct [1, 2] 5 4 2 (by decide)⟩

/-- C4: for every successful complete run of `perform_eval`, the RNG state
observed by the caller afterwards equals the state observed before, and the
model under test is left in training mode; during the run the model is in
eval mode (the state handed to the evaluation loop has `modelTraining =
false`).  The auxiliary modules are also moved back off the device. -/
theorem perform_eval_state_restores (loopBody : EvalState → Except EvalState EvalState)
    (s s3 : EvalState) (hok : loopBody (eval_mode_state s) = Except.ok s3) :
    perform_eval_state loopBody s
        = Except.ok { rng := s.rng, modelTraining := true, modulesOnDevice := false }
      ∧ (eval_mode_state s).modelTraining = false := by
  refine ⟨?_, rfl⟩
  unfold perform_eval_state
  rw [hok]

/-- Witness for C4: an evaluation loop that finishes immediately, run from a
state with RNG value 7. -/
theorem perform_eval_state_restores_witness :
    (fun st => Except.ok st : EvalState → Except EvalState EvalState)
        (eval_mode_state ⟨7, true, false⟩)
        = Except.ok (eval_mode_state ⟨7, true, false⟩)
      ∧ (perform_eval_state (fun st => Except.ok st) ⟨7, true, false⟩
            = Except.ok { rng := 7, modelTraining := true, modulesOnDevice := false }
          ∧ (eval_mode_state ⟨7, true, false⟩).modelTraining = false) :=
  ⟨rfl, perform_eval_state_restores (fun st => Except.ok st) ⟨7, true, false⟩ _ rfl⟩

/-- C10: if the evaluation loop raises after seeding, `perform_eval`
propagates the exception with no restoration: provided the loop body itself
only mutates the RNG (it never touches the model mode or module placement,
as in the source), the escaping state still has the model in eval mode and
the auxiliary modules on the compute device, and its RNG state is whatever
the loop left behind rather than the saved pre-run state. -/
theorem perform_eval_state_error_no_restore
    (loopBody : EvalState → Except EvalState EvalState) (s e : EvalState)
    (herr : loopBody (eval_mode_state s) = Except.error e)
    (hframe : ∀ st e', loopBody st = Except.error e' →
        e'.modelTraining = st.modelTraining ∧ e'.modulesOnDevice = st.modulesOnDevice) :
    perform_eval_state loopBody s = Except.error e
      ∧ e.modelTraining = false ∧ e.modulesOnDevice = true := by
  have h := hframe _ _ herr
  refine ⟨?_, h.1, h.2⟩
  unfold perform_eval_state
  rw [herr]

/-- Witness for C10: a loop body that raises at once, from a pre-run state
with RNG value 0 and the model in training mode; the escaping state has the
seeded RNG value 5, eval mode, and the modules still on the device. -/
theorem perform_eval_state_error_no_restore_witness :
    (fun st => Except.error st : EvalState → Except EvalState EvalState)
        (eval_mode_state ⟨0, true, false⟩)
        = Except.error (⟨5, false, true⟩ : EvalState)
      ∧ (∀ st e' : EvalState,
          (Except.error st : Except EvalState EvalState) = Except.error e' →
          e'.modelTraining = st.modelTraining ∧ e'.modulesOnDevice = st.modulesOnDevice)
      ∧ (perform_eval_state (fun st => Except.error st) ⟨0, true, false⟩
            = Except.error (⟨5, false, true⟩ : EvalState)
          ∧ (⟨5, false, true⟩ : EvalState).modelTraining = false
          ∧ (⟨5, false, true⟩ : EvalState).modulesOnDevice = true) :=
  ⟨rfl, fun st e' h => by cases h; exact ⟨rfl, rfl⟩,
    perform_eval_state_error_no_restore (fun st => Except.error st) ⟨0, true, false⟩
      ⟨5, false, true⟩ rfl (fun st e' h => by cases h; exact ⟨rfl, rfl⟩)⟩

/-- C5: the intelligibility scorer resamples both waveforms from
`sample_rate` to 16000, normalizes each as `(s - mean s) / sqrt(var s +
1e-7)`, computes the ASR loss of each normalized waveform against the
tokenized transcript, and returns exactly the signed difference
`generated_loss - reference_loss`. -/
theorem intelligibility_loss_spec (resample : Nat → Nat → List ℚ → List ℚ)
    (sqrtFn : ℚ → ℚ) (w2vLoss : List ℚ → List Nat → ℚ)
    (text_to_sequence : String → List Nat) (sample real_sample : List ℚ)
    (sample_rate : Nat) (real_text : String) :
    intelligibility_loss resample sqrtFn w2vLoss text_to_sequence
        sample real_sample sample_rate real_text
      = w2vLoss ((resample sample_rate 16000 sample).map (fun x =>
            (x - torch_mean (resample sample_rate 16000 sample))
              / sqrtFn (torch_var (resample sample_rate 16000 sample) + 1 / 10000000)))
          (text_to_sequence real_text)
        - w2vLoss ((resample sample_rate 16000 real_sample).map (fun x =>
            (x - torch_mean (resample sample_rate 16000 real_sample))
              / sqrtFn (torch_var (resample sample_rate 16000 real_sample) + 1 / 10000000)))
          (text_to_sequence real_text) := rfl

/-- C7: feeding the identical waveform as both the generated and the
reference input to the intelligibility scorer yields a gap of zero, since
both branches compute the same loss on the same normalized input. -/
theorem intelligibility_loss_same_input (resample : Nat → Nat → List ℚ → List ℚ)
    (sqrtFn : ℚ → ℚ) (w2vLoss : List ℚ → List Nat → ℚ)
    (text_to_sequence : String → List Nat) (s : List ℚ)
    (sample_rate : Nat) (real_text : String) :
    intelligibility_loss resample sqrtFn w2vLoss text_to_sequence
        s s sample_rate real_text = 0 := by
  unfold intelligibility_loss
  exact sub_self _

/-- C6: with a dataset of 4 entries and a single worker (skip 1, rank 0),
the `perform_eval` loop reads dataset indices 0, 1, 2, 3 in order,
accumulates 4 generated and 4 reference projections, writes the 8 audio
files `0_0_gen.wav`, `0_0_real.wav`, ..., `0_3_gen.wav`, `0_3_real.wav`
under `<base_path>/../audio_eval/<step>/`, and returns a mapping with
exactly the two keys `frechet_distance` and `intelligibility_loss`. -/
theorem perform_eval_loop_four_entries {V : Type} (project_gen project_real : Nat → V) :
    (perform_eval_loop project_gen project_real "base" 100 0 4 1).accessed = [0, 1, 2, 3]
      ∧ (perform_eval_loop project_gen project_real "base" 100 0 4 1).gen_projections.length = 4
      ∧ (perform_eval_loop project_gen project_real "base" 100 0 4 1).real_projections.length = 4
      ∧ (perform_eval_loop project_gen project_real "base" 100 0 4 1).saved_files
          = ["base/../audio_eval/100/0_0_gen.wav", "base/../audio_eval/100/0_0_real.wav",
             "base/../audio_eval/100/0_1_gen.wav", "base/../audio_eval/100/0_1_real.wav",
             "base/../audio_eval/100/0_2_gen.wav", "base/../audio_eval/100/0_2_real.wav",
             "base/../audio_eval/100/0_3_gen.wav", "base/../audio_eval/100/0_3_real.wav"]
      ∧ (perform_eval_loop project_gen project_real "base" 100 0 4 1).result_keys
          = ["frechet_distance", "intelligibility_loss"] :=
  ⟨rfl, rfl, rfl, rfl, rfl⟩

/-- C9: in a distributed run with `world_size > 1` every worker of rank `r`
reads the dataset at `i + r` for the loop indices `i ∈ {0, w, 2w, ...}`
below the dataset length; all reads are in bounds for every rank exactly
when the dataset length is a multiple of the world size, and when
`data_len % world_size = m ≠ 0` every rank `r ≥ m` reads past the end. -/
theorem distributed_index_bounds (data_len world_size : Nat) (hw : 1 < world_size) :
    ((∀ r, r < world_size → ∀ j ∈ accessed_indices r data_len world_size, j < data_len)
        ↔ data_len % world_size = 0)
      ∧ (data_len % world_size ≠ 0 →
          ∀ r, data_len % world_size ≤ r → r < world_size →
            ∃ j ∈ accessed_indices r data_len world_size, data_len ≤ j) := by
  have hw0 : 0 < world_size := by omega
  constructor
  · constructor
    · intro hin
      by_contra hmod
      obtain ⟨i, hi, hge⟩ := pyRange_overflow hw0 hmod (data_len % world_size) le_rfl
      have hj : i + data_len % world_size
          ∈ accessed_indices (data_len % world_size) data_len world_size :=
        List.mem_map.mpr ⟨i, hi, rfl⟩
      have hb := hin (data_len % world_size) (Nat.mod_lt _ hw0) _ hj
      omega
    · intro hmod r hr j hj
      unfold accessed_indices at hj
      obtain ⟨i, hi, rfl⟩ := List.mem_map.mp hj
      rw [mem_pyRange_iff hw0] at hi
      obtain ⟨k, rfl, hlt⟩ := hi
      obtain ⟨q, hq⟩ := Nat.dvd_of_mod_eq_zero hmod
      have hkq : k < q := by
        by_contra hk
        push_neg at hk
        have h1 : world_size * q ≤ world_size * k := Nat.mul_le_mul_left _ hk
        have h2 : world_size * k = k * world_size := Nat.mul_comm _ _
        omega
      have h3 : (k + 1) * world_size ≤ q * world_size :=
        Nat.mul_le_mul_right _ (by omega)
      have h4 : (k + 1) * world_size = k * world_size + world_size := by ring
      have h5 : q * world_size = world_size * q := Nat.mul_comm _ _
      omega
  · intro hmod r hmr hrw
    obtain ⟨i, hi, hge⟩ := pyRange_overflow hw0 hmod r hmr
    exact ⟨i + r, List.mem_map.mpr ⟨i, hi, rfl⟩, hge⟩

/-- Witness for C9 at `data_len = 3`, `world_size = 2`: the dataset length is
not a multiple of the world size and rank 1 reads index 3, past the end. -/
theorem distributed_index_bounds_witness :
    1 < 2
      ∧ (((∀ r, r < 2 → ∀ j ∈ accessed_indices r 3 2, j < 3) ↔ 3 % 2 = 0)
        ∧ (3 % 2 ≠ 0 → ∀ r, 3 % 2 ≤ r → r < 2 → ∃ j ∈ accessed_indices r 3 2, 3 ≤ j)) :=
  ⟨by decide, distributed_index_bounds 3 2 (by decide)⟩

/-- C8: the Fréchet distance computed by `compute_frechet_distance` is
symmetric in its two embedding stacks (of equal dimension, each with at
least 2 samples), given that the externally computed trace of the matrix
square root depends only on the spectrum of its argument. -/
theorem compute_frechet_distance_symm {d : ℕ} (tr_sqrtm : Matrix (Fin d) (Fin d) ℚ → ℚ)
    (hspec : SpectralFunction tr_sqrtm) (proj1 proj2 : List (Fin d → ℚ))
    (h1 : 2 ≤ proj1.length) (h2 : 2 ≤ proj2.length) :
    compute_frechet_distance tr_sqrtm proj1 proj2
      = compute_frechet_distance tr_sqrtm proj2 proj1 := by
  unfold compute_frechet_distance calculate_frechet_distance
  rw [hspec _ _ (charpoly_mul_comm (np_cov proj1) (np_cov proj2))]
  have hsum : Finset.univ.sum (fun j => (np_mean proj1 j - np_mean proj2 j) ^ 2)
      = Finset.univ.sum (fun j => (np_mean proj2 j - np_mean proj1 j) ^ 2) := by
    apply Finset.sum_congr rfl
    intro j _
    ring
  rw [hsum]
  ring

/-- Witness for C8 with two concrete 2-sample stacks of 1-dimensional
embeddings and the constant-zero spectral function. -/
theorem compute_frechet_distance_symm_witness :
    SpectralFunction (fun _ : Matrix (Fin 1) (Fin 1) ℚ => (0 : ℚ))
      ∧ 2 ≤ ([fun _ => 0, fun _ => 1] : List (Fin 1 → ℚ)).length
      ∧ 2 ≤ ([fun _ => 2, fun _ => 3] : List (Fin 1 → ℚ)).length
      ∧ compute_frechet_distance (fun _ => 0)
            ([fun _ => 0, fun _ => 1] : List (Fin 1 → ℚ))
            ([fun _ => 2, fun _ => 3] : List (Fin 1 → ℚ))
          = compute_frechet_distance (fun _ => 0)
            ([fun _ => 2, fun _ => 3] : List (Fin 1 → ℚ))
            ([fun _ => 0, fun _ => 1] : List (Fin 1 → ℚ)) :=
  ⟨fun M N h => rfl, by decide, by decide,
    compute_frechet_distance_symm (fun _ => (0 : ℚ)) (fun M N h => rfl)
      ([fun _ => 0, fun _ => 1] : List (Fin 1 → ℚ))
      ([fun _ => 2, fun _ => 3] : List (Fin 1 → ℚ)) (by decide) (by decide)⟩
